import Mathlib

/-!
Verification of the Lumen blog backend's Interaction & Consistency Engine.

The definitions below are a shallow embedding of the Python source:
relational tables become `List` values, SQLAlchemy queries become
`List.find?`/`List.filter`, a committed row update becomes `List.map`
over the matching primary key, raising `HTTPException` becomes
`Except.error` (a raise aborts the request before any `db.commit()`,
so an `error` result leaves every table unchanged), and Redis /
Elasticsearch effects are explicit state passing.
-/

set_option autoImplicit false
set_option maxRecDepth 4000

/-- `fastapi.HTTPException`: an HTTP status code plus a detail string. -/
structure HttpError where
  status : Nat
  detail : String
deriving DecidableEq, Repr

namespace Comments

/-- Row of the `comments` table (`app/models/social.py`, class `Comment`).
Timestamps are abstract `Nat` instants; `content` is the raw text. -/
structure Comment where
  id : Nat
  content : String
  postId : Nat
  authorId : Nat
  parentId : Option Nat
  isDeleted : Bool
  deletedAt : Option Nat
  createdAt : Nat
deriving DecidableEq, Repr

/-- The fixed tombstone string written by `Comment.soft_delete`. -/
def tombstone : String := "[Bu yorum silindi]"

/-- `Comment.soft_delete` (`app/models/social.py` lines 44-48): marks the
row deleted and overwrites its content with the tombstone. -/
def Comment.soft_delete (c : Comment) (now : Nat) : Comment :=
  { c with isDeleted := true, deletedAt := some now, content := tombstone }

/-- `create_comment` (`app/routers/comments.py` lines 21-67).
The post-existence check is a lookup of the post id; the parent check
selects a comment whose id is `parent_id` AND whose `post_id` is the
path's post id, raising 404 "Parent comment not found" when that
select is empty (whether the parent is absent altogether or belongs
to a different post).  On success the new row is appended; on error
nothing is inserted (the raise happens before `db.add`). -/
def create_comment (posts : List Nat) (comments : List Comment)
    (postId authorId : Nat) (content : String) (parentId : Option Nat)
    (newId now : Nat) : Except HttpError (List Comment) :=
  if ¬ posts.contains postId then
    .error ⟨404, "Post not found"⟩
  else
    let insert : Except HttpError (List Comment) :=
      .ok (comments.concat ⟨newId, content, postId, authorId, parentId, false, none, now⟩)
    match parentId with
    | some pid =>
      match comments.find? (fun c => c.id == pid && c.postId == postId) with
      | none => .error ⟨404, "Parent comment not found"⟩
      | some _ => insert
    | none => insert

/-- `delete_comment` (`app/routers/comments.py` lines 168-192): select the
comment by (id, post id), 404 if absent, 403 unless author or admin,
otherwise `comment.soft_delete()` then commit.  There is no
already-deleted check: a tombstoned comment is soft-deleted again. -/
def delete_comment (comments : List Comment) (postId commentId actorId : Nat)
    (isAdmin : Bool) (now : Nat) : Except HttpError (List Comment) :=
  match comments.find? (fun c => c.id == commentId && c.postId == postId) with
  | none => .error ⟨404, "Comment not found"⟩
  | some c =>
    if c.authorId != actorId && !isAdmin then
      .error ⟨403, "Not authorized to delete this comment"⟩
    else
      .ok (comments.map fun r =>
        if r.id == commentId && r.postId == postId then r.soft_delete now else r)

/-- Insertion step of the `ORDER BY created_at ASC` sort used by
`get_replies`. -/
def insertByCreated (c : Comment) : List Comment → List Comment
  | [] => [c]
  | d :: ds => if c.createdAt ≤ d.createdAt then c :: d :: ds else d :: insertByCreated c ds

/-- `ORDER BY created_at ASC` over a result set. -/
def sortByCreated (l : List Comment) : List Comment :=
  l.foldr insertByCreated []

/-- `get_replies` (`app/routers/comments.py` lines 108-131): rows with the
given post id whose `parent_id` is the given comment id, ordered by
`created_at` ascending, paginated with `offset = (page-1)*size`. -/
def get_replies (comments : List Comment) (postId commentId page size : Nat) :
    List Comment :=
  ((sortByCreated (comments.filter fun c =>
      c.postId == postId && c.parentId == some commentId)).drop
    ((page - 1) * size)).take size

end Comments

namespace Interactions

/-- Row of the `likes` table (`app/models/social.py`, class `Like`). -/
structure Like where
  postId : Nat
  userId : Nat
  clapCount : Nat
deriving DecidableEq, Repr

/-- `like_post` (`app/routers/interactions.py` lines 22-59): 404 unless the
post exists; if a (post,user) like row exists, set its `clap_count` to
`min(clap_count + amount, 50)`, otherwise insert a fresh row with
`min(amount, 50)`. -/
def like_post (posts : List Nat) (likes : List Like) (postId userId amount : Nat) :
    Except HttpError (List Like) :=
  if ¬ posts.contains postId then
    .error ⟨404, "Post not found"⟩
  else
    match likes.find? (fun l => l.postId == postId && l.userId == userId) with
    | some _ =>
      .ok (likes.map fun l =>
        if l.postId == postId && l.userId == userId then
          { l with clapCount := min (l.clapCount + amount) 50 }
        else l)
    | none =>
      .ok (likes.concat ⟨postId, userId, min amount 50⟩)

/-- A sequence of `like_post` calls by the same user on the same post. -/
def clapRun (posts : List Nat) (likes : List Like) (postId userId : Nat)
    (amounts : List Nat) : Except HttpError (List Like) :=
  amounts.foldlM (fun ls a => like_post posts ls postId userId a) likes

/-- The like rows for a given (post, user) pair. -/
def likeRows (postId userId : Nat) (likes : List Like) : List Like :=
  likes.filter fun l => l.postId == postId && l.userId == userId

end Interactions

namespace FollowG

/-- Row of the `follows` table (`app/models/social.py`, class `Follow`). -/
structure Follow where
  follower : Nat
  followed : Nat
deriving DecidableEq, Repr

/-- `follow_user` (`app/routers/follow.py` lines 20-58): the self-follow
check comes first (before any database lookup), then target existence,
then the duplicate-edge check; both conflict cases are HTTP 400. -/
def follow_user (users : List Nat) (edges : List Follow) (currentUser targetId : Nat) :
    Except HttpError (List Follow) :=
  if targetId == currentUser then
    .error ⟨400, "Cannot follow yourself"⟩
  else if ¬ users.contains targetId then
    .error ⟨404, "User not found"⟩
  else if edges.any (fun e => e.follower == currentUser && e.followed == targetId) then
    .error ⟨400, "Already following this user"⟩
  else
    .ok (⟨currentUser, targetId⟩ :: edges)

/-- The edge table after a `follow_user` request: a raised `HTTPException`
aborts the request before any commit, leaving the table unchanged. -/
def follow_apply (users : List Nat) (edges : List Follow) (currentUser targetId : Nat) :
    List Follow :=
  match follow_user users edges currentUser targetId with
  | .ok edges2 => edges2
  | .error _ => edges

end FollowG

namespace Analytics

/-- Redis modelled as an association list from keys to the set of
elements added under that key (the HyperLogLog behind `PFADD` is
modelled by its ideal set semantics, which is how the caller treats
its return value). -/
abbrev Redis := List (String × List String)

/-- Elements currently stored under a key. -/
def redisLookup (r : Redis) (key : String) : List String :=
  match r.find? (fun e => decide (e.1 = key)) with
  | some e => e.2
  | none => []

/-- `PFADD key element`: returns 1 and records the element when it is new
to the key's structure, 0 otherwise. -/
def pfadd (r : Redis) (key elem : String) : Nat × Redis :=
  let cur := redisLookup r key
  if elem ∈ cur then (0, r)
  else (1, (key, elem :: cur) :: r.filter (fun e => decide (e.1 ≠ key)))

/-- The per-post Redis key `post:{post_id}:views:hll` used by
`AnalyticsService.increment_view_count`. -/
def viewKey (postId : String) : String :=
  "post:" ++ postId ++ ":views:hll"

/-- `AnalyticsService.increment_view_count`
(`app/services/analytics/service.py` lines 9-21): `PFADD` the viewer's
IP into the post's structure and report whether it was new. -/
def increment_view_count (r : Redis) (postId ipAddress : String) : Bool × Redis :=
  let res := pfadd r (viewKey postId) ipAddress
  (res.1 == 1, res.2)

end Analytics

namespace Posts

/-- `PostStatus` (`app/models/post.py`). -/
inductive PostStatus
  | draft
  | published
  | archived
deriving DecidableEq, Repr

/-- Row of the `posts` table (`app/models/post.py`, class `Post`),
restricted to the fields the verified operations touch.  `contentText`
stands for the flattened plain text of the JSONB block content (the
output of `extract_text_from_content`). -/
structure Post where
  id : String
  authorId : String
  title : String
  slug : String
  contentText : String
  status : PostStatus
  publishedAt : Option Nat
  viewCount : Nat
  readTime : Nat
deriving DecidableEq, Repr

/-- Drop leading and trailing characters satisfying `p` (Python `strip`). -/
def stripEnds (p : Char → Bool) (cs : List Char) : List Char :=
  ((cs.dropWhile p).reverse.dropWhile p).reverse

/-- Collapse each run of consecutive hyphens to a single hyphen
(the `re.sub(r'-+', '-', ...)` step). -/
def collapseHyphens : List Char → List Char
  | [] => []
  | [c] => [c]
  | a :: b :: rest =>
    if a = '-' && b = '-' then collapseHyphens (b :: rest)
    else a :: collapseHyphens (b :: rest)

/-- `generate_slug` (`app/models/post.py` lines 18-30): lowercase and
strip, drop characters outside `[\w\s-]`, turn whitespace and
underscores into hyphens, collapse hyphen runs, strip hyphens.
(Replacing each `[\s_]` character by `-` and then collapsing `-+`
agrees with replacing whole runs at once.) -/
def generate_slug (title : String) : String :=
  let cs := title.data.map Char.toLower
  let cs := stripEnds Char.isWhitespace cs
  let cs := cs.filter fun c => c.isAlphanum || c = '_' || c.isWhitespace || c = '-'
  let cs := cs.map fun c => if c.isWhitespace || c = '_' then '-' else c
  let cs := collapseHyphens cs
  ⟨stripEnds (fun c => c = '-') cs⟩

/-- The `while slug in existing_slugs` loop of `Post.create_slug`,
run with explicit fuel (`existing.length + 1` suffices: some counter
in `1..n+1` yields a slug outside a list of `n` entries). -/
def slugLoop (base : String) (existing : List String) : Nat → Nat → String
  | 0, counter => base ++ "-" ++ toString counter
  | fuel + 1, counter =>
    let s := base ++ "-" ++ toString counter
    if existing.contains s then slugLoop base existing fuel (counter + 1) else s

/-- `Post.create_slug` (`app/models/post.py` lines 73-86). -/
def create_slug (title : String) (existing : List String) : String :=
  let base := generate_slug title
  if existing.contains base then slugLoop base existing (existing.length + 1) 1
  else base

/-- Number of whitespace-separated words (`len(text.split())`); the
Boolean argument tracks whether the scan is inside a word. -/
def countWords : List Char → Bool → Nat
  | [], _ => 0
  | c :: rest, inWord =>
    if c.isWhitespace then countWords rest false
    else (if inWord then 0 else 1) + countWords rest true

/-- Python `round` on `num / den`: round half to even. -/
def roundHalfEven (num den : Nat) : Nat :=
  let q := num / den
  let r := num % den
  if 2 * r < den then q
  else if den < 2 * r then q + 1
  else if q % 2 = 0 then q else q + 1

/-- `calculate_read_time` (`app/routers/posts.py` lines 40-46), applied to
the already-flattened text: `max(1, round(word_count / 200))`. -/
def calculate_read_time (contentText : String) : Nat :=
  max 1 (roundHalfEven (countWords contentText.data false) 200)

/-- A search-index synchronization event handed to the background tasks:
either an upsert of a post's projection or a removal by post id. -/
inductive SyncEvent
  | upsert (post : Post)
  | remove (postId : String)
deriving DecidableEq, Repr

/-- The fields of `PostUpdate` (`app/schemas/post.py`) that the verified
claims touch; `none` means the field was not present in the request
(`exclude_unset`). -/
structure PostUpdate where
  title : Option String
  contentText : Option String
  status : Option PostStatus
deriving Repr

/-- Field application of `update_post` (`app/routers/posts.py` lines
258-277): a new title regenerates the slug against the other posts'
slugs, new content recomputes `read_time`, and a transition to
published sets `published_at` when it was previously null. -/
def apply_update (post : Post) (upd : PostUpdate) (otherSlugs : List String)
    (now : Nat) : Post :=
  let p := match upd.title with
    | some t => { post with title := t, slug := create_slug t otherSlugs }
    | none => post
  let p := match upd.contentText with
    | some c => { p with contentText := c, readTime := calculate_read_time c }
    | none => p
  match upd.status with
  | some s =>
    let p2 := { p with status := s }
    if s = PostStatus.published ∧ post.publishedAt = none then
      { p2 with publishedAt := some now }
    else p2
  | none => p

/-- `update_post` (`app/routers/posts.py` lines 229-297): find the post,
404 if absent, 403 unless author or admin, apply the update, commit,
and `return post` (line 280).  The search-index block that follows
that `return` in the source (lines 285-293) is unreachable dead code,
so the emitted event list is always empty. -/
def update_post (posts : List Post) (postId actorId : String) (isAdmin : Bool)
    (upd : PostUpdate) (now : Nat) : Except HttpError (Post × List SyncEvent) :=
  match posts.find? (fun p => p.id == postId) with
  | none => .error ⟨404, "Post not found"⟩
  | some post =>
    if post.authorId != actorId && !isAdmin then
      .error ⟨403, "Not authorized to update this post"⟩
    else
      let otherSlugs := (posts.filter fun p => p.id != postId).map (·.slug)
      .ok (apply_update post upd otherSlugs now, [])

/-- The unreachable tail of `update_post` (`app/routers/posts.py` lines
285-293): what the update handler would hand to the background tasks
had control ever reached past the `return` on line 280. -/
def update_post_dead_block (post : Post) : List SyncEvent :=
  if post.status = PostStatus.published then [SyncEvent.upsert post]
  else [SyncEvent.remove post.id]

/-- `get_post_by_slug` (`app/routers/posts.py` lines 186-227): find the
post by slug, 404 if absent or not published, register the viewer's IP
with the deduplicator, and increment the durable `view_count` by one
exactly when that registration reported a unique view. -/
def get_post_by_slug (posts : List Post) (r : Analytics.Redis)
    (slug clientIp : String) : Except HttpError (Post × Analytics.Redis) :=
  match posts.find? (fun p => p.slug == slug) with
  | none => .error ⟨404, "Post not found"⟩
  | some post =>
    if post.status ≠ PostStatus.published then
      .error ⟨404, "Post not found"⟩
    else
      let res := Analytics.increment_view_count r post.id clientIp
      let post2 := if res.1 then { post with viewCount := post.viewCount + 1 } else post
      .ok (post2, res.2)

end Posts

namespace Search

/-- The document stored in the `lumen_posts` Elasticsearch index by
`SearchService.index_post` (restricted to representative fields).  The
document carries `created_at` but no `updated_at`. -/
structure PostDoc where
  title : String
  contentText : String
  status : String
  createdAt : Nat
deriving DecidableEq, Repr

/-- The payload a sync event carries (the `post_dict` built by the posts
router), including the primary store's `updated_at`. -/
structure PostPayload where
  id : Nat
  title : String
  contentText : String
  status : String
  createdAt : Nat
  updatedAt : Nat
deriving DecidableEq, Repr

/-- The document `index_post` builds from its payload
(`app/services/search.py` lines 47-60): the projection drops
`updated_at`; no freshness field reaches the index. -/
def index_post_doc (p : PostPayload) : PostDoc :=
  ⟨p.title, p.contentText, p.status, p.createdAt⟩

/-- The Elasticsearch index: documents keyed by post id. -/
abbrev EsIndex := List (Nat × PostDoc)

/-- `client.index(index=..., id=..., document=doc)`: unconditional
overwrite of the document stored under `id`. -/
def esSet (idx : EsIndex) (id : Nat) (d : PostDoc) : EsIndex :=
  (id, d) :: idx.filter fun e => e.1 != id

/-- Document currently stored under an id. -/
def esGet (idx : EsIndex) (id : Nat) : Option PostDoc :=
  (idx.find? fun e => e.1 == id).map (·.2)

/-- `SearchService.index_post` (`app/services/search.py` lines 44-63):
build the projection and issue a single `client.index` call inside
`try/except`; the result records the new index, the number of client
calls attempted, and whether an exception escaped.  A failing call is
logged and swallowed — there is no comparison against the already
indexed document and no retry. -/
def index_post (callFails : Bool) (idx : EsIndex) (p : PostPayload) :
    EsIndex × Nat × Bool :=
  if callFails then (idx, 1, false)
  else (esSet idx p.id (index_post_doc p), 1, false)

end Search

/-! ## General list lemmas used by several proofs -/

/-- Mapping a function that changes neither the predicate's verdict nor
any element the predicate accepts leaves a filtered view unchanged. -/
theorem filter_map_eq_self {α : Type} (f : α → α) (p : α → Bool) (l : List α)
    (h1 : ∀ a ∈ l, p (f a) = p a) (h2 : ∀ a ∈ l, p a = true → f a = a) :
    (l.map f).filter p = l.filter p := by
  induction l with
  | nil => rfl
  | cons a l ih =>
    have ha1 := h1 a (List.mem_cons_self a l)
    have hl := ih (fun x hx => h1 x (List.mem_cons_of_mem a hx))
      (fun x hx => h2 x (List.mem_cons_of_mem a hx))
    rw [List.map_cons, List.filter_cons, List.filter_cons, ha1, hl]
    cases hp : p a with
    | true => rw [h2 a (List.mem_cons_self a l) hp]
    | false => rfl

/-- Filtering commutes with mapping a verdict-preserving function. -/
theorem filter_map_comm {α : Type} (f : α → α) (p : α → Bool)
    (hp : ∀ a, p (f a) = p a) (l : List α) :
    (l.map f).filter p = (l.filter p).map f := by
  induction l with
  | nil => rfl
  | cons a l ih => cases h : p a <;> simp [List.filter_cons, hp, h, ih]

/-- `find?` returns the head of the filtered list. -/
theorem find?_eq_head?_filter {α : Type} (p : α → Bool) (l : List α) :
    l.find? p = (l.filter p).head? := by
  induction l with
  | nil => rfl
  | cons a l ih =>
    rw [List.find?_cons, List.filter_cons]
    cases h : p a with
    | true => rfl
    | false => exact ih

/-- Pre-filtering by a weaker predicate does not change `find?`. -/
theorem find?_filter_of_imp {α : Type} (p q : α → Bool)
    (hpq : ∀ a, p a = true → q a = true) (l : List α) :
    (l.filter q).find? p = l.find? p := by
  induction l with
  | nil => rfl
  | cons a l ih =>
    cases hq : q a with
    | true =>
      cases hp : p a with
      | true => simp [List.filter_cons, hq, List.find?_cons, hp]
      | false => simp [List.filter_cons, hq, List.find?_cons, hp, ih]
    | false =>
      have hp : p a = false := by
        cases hpa : p a with
        | true => exact absurd (hpq a hpa) (by simp [hq])
        | false => rfl
      simp [List.filter_cons, hq, List.find?_cons, hp, ih]

/-- Clamping at 50 absorbs an earlier clamp. -/
theorem min_add_cap (s a : Nat) : min (min s 50 + a) 50 = min (s + a) 50 := by
  omega

namespace Comments

/-- Claim C4: soft-deleting a comment marks the row deleted and replaces
its content with the fixed tombstone while every reply stays
retrievable via `get_replies` unchanged (same `parent_id`, same
content): the reply listing is identical before and after, every row
other than the deleted one survives unmodified, and the deleted row
carries `is_deleted` and the tombstone.  The acyclicity hypothesis
says no comment is its own parent. -/
theorem soft_delete_preserves_replies
    (comments : List Comment) (postId commentId actorId : Nat) (isAdmin : Bool)
    (now : Nat) (store2 : List Comment)
    (hacyc : ∀ r ∈ comments, r.parentId ≠ some r.id)
    (hdel : delete_comment comments postId commentId actorId isAdmin now = .ok store2) :
    (∀ page size, get_replies store2 postId commentId page size
        = get_replies comments postId commentId page size)
    ∧ (∀ r ∈ comments, ¬(r.id = commentId ∧ r.postId = postId) → r ∈ store2)
    ∧ (∀ r ∈ store2, r.id = commentId → r.postId = postId →
        r.isDeleted = true ∧ r.content = tombstone) := by
  classical
  cases hfind : comments.find? (fun c => c.id == commentId && c.postId == postId) with
  | none =>
    simp only [delete_comment, hfind] at hdel
    exact absurd hdel (by simp)
  | some c =>
    simp only [delete_comment, hfind] at hdel
    cases hauth : (c.authorId != actorId && !isAdmin) with
    | true =>
      rw [hauth] at hdel
      exact absurd hdel (by simp)
    | false =>
      rw [hauth] at hdel
      have hmap : store2 = comments.map fun r =>
          if r.id == commentId && r.postId == postId then r.soft_delete now else r := by
        simpa using hdel.symm
      subst hmap
      refine ⟨?_, ?_, ?_⟩
      · intro page size
        unfold get_replies
        have hfilter :
            (comments.map fun r =>
                if r.id == commentId && r.postId == postId then r.soft_delete now
                else r).filter
              (fun c => c.postId == postId && c.parentId == some commentId)
            = comments.filter
              (fun c => c.postId == postId && c.parentId == some commentId) := by
          refine filter_map_eq_self _ _ _ (fun a _ => ?_) (fun a ha hpa => ?_)
          · by_cases h : (a.id == commentId && a.postId == postId) = true
            · simp [h, Comment.soft_delete]
            · simp [h]
          · have hpar : a.parentId = some commentId := by
              have := (Bool.and_eq_true _ _).mp hpa
              exact beq_iff_eq.mp this.2
            have hcond : (a.id == commentId && a.postId == postId) = false := by
              cases hc : (a.id == commentId && a.postId == postId) with
              | true =>
                have h1 := (Bool.and_eq_true _ _).mp hc
                have hid : a.id = commentId := beq_iff_eq.mp h1.1
                exact absurd (hpar.trans (by rw [hid])) (hacyc a ha)
              | false => rfl
            simp [hcond]
        rw [hfilter]
      · intro r hr hnot
        have hcond : (r.id == commentId && r.postId == postId) = false := by
          cases hc : (r.id == commentId && r.postId == postId) with
          | true =>
            have h1 := (Bool.and_eq_true _ _).mp hc
            exact absurd ⟨beq_iff_eq.mp h1.1, beq_iff_eq.mp h1.2⟩ hnot
          | false => rfl
        have : (if r.id == commentId && r.postId == postId then r.soft_delete now
            else r) = r := by rw [hcond]; rfl
        exact this ▸ List.mem_map_of_mem _ hr
      · intro r hr hid hpid
        obtain ⟨x, _, hx⟩ := List.mem_map.mp hr
        by_cases hc : (x.id == commentId && x.postId == postId) = true
        · rw [if_pos hc] at hx
          rw [← hx]
          exact ⟨rfl, rfl⟩
        · rw [if_neg hc] at hx
          subst hx
          exact absurd (by simp [hid, hpid]) hc

/-- Witness for C4 on a two-comment store: deleting the parent leaves the
reply listing untouched. -/
theorem soft_delete_preserves_replies_witness :
    get_replies
      [⟨10, tombstone, 1, 7, none, true, some 5, 0⟩,
       ⟨11, "reply", 1, 8, some 10, false, none, 1⟩] 1 10 1 20
    = get_replies
      [⟨10, "hello", 1, 7, none, false, none, 0⟩,
       ⟨11, "reply", 1, 8, some 10, false, none, 1⟩] 1 10 1 20 :=
  (soft_delete_preserves_replies
    [⟨10, "hello", 1, 7, none, false, none, 0⟩,
     ⟨11, "reply", 1, 8, some 10, false, none, 1⟩] 1 10 7 false 5
    [⟨10, tombstone, 1, 7, none, true, some 5, 0⟩,
     ⟨11, "reply", 1, 8, some 10, false, none, 1⟩]
    (by decide) rfl).1 1 20

/-- Counterexample to C6: a parent comment that exists but belongs to a
different post produces the very same 404 "Parent comment not found"
error as a parent that does not exist at all — there is no distinct
`InvalidParent` failure in the code. -/
theorem wrong_post_parent_same_error_as_missing :
    (([⟨10, "hi", 2, 7, none, false, none, 0⟩] : List Comment).find?
        (fun c => c.id == 10)) = some ⟨10, "hi", 2, 7, none, false, none, 0⟩
    ∧ create_comment [1, 2] [⟨10, "hi", 2, 7, none, false, none, 0⟩] 1 8 "reply"
        (some 10) 11 3 = .error ⟨404, "Parent comment not found"⟩
    ∧ create_comment [1, 2] [] 1 8 "reply" (some 10) 11 3
        = .error ⟨404, "Parent comment not found"⟩ :=
  ⟨rfl, rfl, rfl⟩

/-- Claim C6 as amended: `create_comment` fails with 404 `NotFound` when
the post id does not resolve, and fails with the same 404 `NotFound`
(not a distinct `InvalidParent` error) when the parent comment does
not resolve on the given post — whether it is absent altogether or
belongs to a different post; an error return aborts the request
before `db.add`, so no comment row is inserted. -/
theorem create_comment_notfound_errors
    (posts : List Nat) (comments : List Comment) (postId authorId : Nat)
    (content : String) (pid newId now : Nat) :
    (postId ∉ posts →
      create_comment posts comments postId authorId content (some pid) newId now
        = .error ⟨404, "Post not found"⟩)
    ∧ (postId ∈ posts →
      comments.find? (fun c => c.id == pid && c.postId == postId) = none →
      create_comment posts comments postId authorId content (some pid) newId now
        = .error ⟨404, "Parent comment not found"⟩) := by
  constructor
  · intro h
    unfold create_comment
    rw [if_pos (by simpa using h)]
  · intro h hf
    unfold create_comment
    rw [if_neg (by simpa using h)]
    simp only [hf]

/-- Witness for C6 (amended) at a concrete store. -/
theorem create_comment_notfound_errors_witness :
    create_comment [1] [] 1 8 "x" (some 10) 11 3
      = .error ⟨404, "Parent comment not found"⟩ :=
  (create_comment_notfound_errors [1] [] 1 8 "x" 10 11 3).2 (by decide) rfl

/-- Claim C10: soft-deleting an already-deleted comment is idempotent and
raises no error: an authorized second delete succeeds (no
`AlreadyDeleted` failure exists in the code) and the row keeps
`is_deleted = true` with the tombstone content, since `soft_delete`
is applied again. -/
theorem delete_comment_idempotent
    (comments : List Comment) (postId commentId actorId : Nat) (isAdmin : Bool)
    (now : Nat) (c : Comment)
    (hfind : comments.find? (fun r => r.id == commentId && r.postId == postId)
        = some c)
    (hdeleted : c.isDeleted = true)
    (hauth : c.authorId = actorId ∨ isAdmin = true) :
    delete_comment comments postId commentId actorId isAdmin now
      = .ok (comments.map fun r =>
          if r.id == commentId && r.postId == postId then r.soft_delete now else r) := by
  have hcond : (c.authorId != actorId && !isAdmin) = false := by
    rcases hauth with h | h
    · simp [h]
    · simp [h]
  simp only [delete_comment, hfind, hcond]
  rfl

/-- Witness for C10: a second authorized delete of an already tombstoned
comment succeeds. -/
theorem delete_comment_idempotent_witness :
    delete_comment [⟨10, tombstone, 1, 7, none, true, some 5, 0⟩] 1 10 7 false 9
      = .ok (([⟨10, tombstone, 1, 7, none, true, some 5, 0⟩] : List Comment).map
          fun r => if r.id == 10 && r.postId == 1 then r.soft_delete 9 else r) :=
  delete_comment_idempotent [⟨10, tombstone, 1, 7, none, true, some 5, 0⟩] 1 10 7
    false 9 ⟨10, tombstone, 1, 7, none, true, some 5, 0⟩ rfl rfl (Or.inl rfl)

end Comments

namespace Interactions

/-- Updating the clap count of the matching rows commutes with selecting
them, because the update preserves the (post, user) key. -/
theorem likeRows_map_update (postId userId amount : Nat) (likes : List Like) :
    likeRows postId userId (likes.map fun l =>
        if l.postId == postId && l.userId == userId then
          { l with clapCount := min (l.clapCount + amount) 50 }
        else l)
      = (likeRows postId userId likes).map fun l =>
          if l.postId == postId && l.userId == userId then
            { l with clapCount := min (l.clapCount + amount) 50 }
          else l := by
  unfold likeRows
  refine filter_map_comm _ _ (fun l => ?_) likes
  by_cases h : (l.postId == postId && l.userId == userId) = true
  · rw [if_pos h]
  · rw [if_neg h]

/-- One `like_post` step on a pair that already has exactly one row:
the row's count is clamped to `min(old + amount, 50)`. -/
theorem like_post_existing (posts : List Nat) (likes : List Like)
    (postId userId amount c : Nat)
    (hpost : postId ∈ posts)
    (hrow : likeRows postId userId likes = [⟨postId, userId, c⟩]) :
    ∃ likes2, like_post posts likes postId userId amount = .ok likes2
      ∧ likeRows postId userId likes2 = [⟨postId, userId, min (c + amount) 50⟩] := by
  have hfind : likes.find? (fun l => l.postId == postId && l.userId == userId)
      = some ⟨postId, userId, c⟩ := by
    rw [find?_eq_head?_filter]
    rw [show likes.filter (fun l => l.postId == postId && l.userId == userId)
        = likeRows postId userId likes from rfl, hrow]
    rfl
  have hstep : like_post posts likes postId userId amount
      = .ok (likes.map fun l =>
          if l.postId == postId && l.userId == userId then
            { l with clapCount := min (l.clapCount + amount) 50 }
          else l) := by
    unfold like_post
    rw [if_neg (by simpa using hpost)]
    rw [hfind]
  refine ⟨_, hstep, ?_⟩
  rw [likeRows_map_update, hrow]
  simp

/-- Starting from a single row holding `min s 50`, a run of claps ends
with the single row holding `min (s + sum) 50`. -/
theorem clapRun_invariant (posts : List Nat) (postId userId : Nat)
    (hpost : postId ∈ posts) :
    ∀ (amounts : List Nat) (likes : List Like) (s : Nat),
      likeRows postId userId likes = [⟨postId, userId, min s 50⟩] →
      ∃ likes2, clapRun posts likes postId userId amounts = .ok likes2
        ∧ likeRows postId userId likes2
            = [⟨postId, userId, min (s + amounts.sum) 50⟩] := by
  intro amounts
  induction amounts with
  | nil =>
    intro likes s hrow
    exact ⟨likes, rfl, by simpa using hrow⟩
  | cons a rest ih =>
    intro likes s hrow
    obtain ⟨l1, hstep, hrow1⟩ :=
      like_post_existing posts likes postId userId a (min s 50) hpost hrow
    rw [min_add_cap] at hrow1
    obtain ⟨l2, hrun, hrow2⟩ := ih l1 (s + a) hrow1
    refine ⟨l2, ?_, ?_⟩
    · unfold clapRun
      rw [List.foldlM_cons, hstep]
      exact hrun
    · rw [hrow2, List.sum_cons]
      rw [Nat.add_assoc]

/-- Claim C1: for a sequence of claps by the same user on the same post
(each amount in [1,50], starting with no like row), the run succeeds
and the (post, user) pair ends with exactly one like row whose
`clap_count` is `min(50, sum of the amounts)`: the first clap creates
the row with `min(amount, 50)` and each later clap clamps
`clap_count + amount` at 50. -/
theorem clap_seq_cap (posts : List Nat) (likes : List Like) (postId userId : Nat)
    (amounts : List Nat)
    (hpost : postId ∈ posts)
    (hnew : likeRows postId userId likes = [])
    (hne : amounts ≠ [])
    (hrange : ∀ a ∈ amounts, 1 ≤ a ∧ a ≤ 50) :
    (clapRun posts likes postId userId amounts).map (likeRows postId userId)
      = .ok [⟨postId, userId, min 50 amounts.sum⟩] := by
  obtain ⟨a, rest, rfl⟩ := List.exists_cons_of_ne_nil hne
  have hfind : likes.find? (fun l => l.postId == postId && l.userId == userId)
      = none := by
    rw [find?_eq_head?_filter]
    rw [show likes.filter (fun l => l.postId == postId && l.userId == userId)
        = likeRows postId userId likes from rfl, hnew]
    rfl
  have hstep : like_post posts likes postId userId a
      = .ok (likes.concat ⟨postId, userId, min a 50⟩) := by
    unfold like_post
    rw [if_neg (by simpa using hpost)]
    rw [hfind]
  have hrow1 : likeRows postId userId (likes.concat ⟨postId, userId, min a 50⟩)
      = [⟨postId, userId, min a 50⟩] := by
    unfold likeRows
    rw [List.concat_eq_append, List.filter_append]
    rw [show likes.filter (fun l => l.postId == postId && l.userId == userId)
        = likeRows postId userId likes from rfl, hnew]
    simp
  obtain ⟨l2, hrun, hrow2⟩ :=
    clapRun_invariant posts postId userId hpost rest _ a hrow1
  have hcons : clapRun posts likes postId userId (a :: rest) = .ok l2 := by
    unfold clapRun
    rw [List.foldlM_cons, hstep]
    exact hrun
  rw [hcons, Except.map, hrow2, List.sum_cons, Nat.min_comm]

/-- Witness for C1 on the spec's scenario: clapping 30 then 30 ends at 50. -/
theorem clap_seq_cap_witness :
    (clapRun [1] [] 1 2 [30, 30]).map (likeRows 1 2)
      = .ok [⟨1, 2, min 50 (List.sum [30, 30])⟩] :=
  clap_seq_cap [1] [] 1 2 [30, 30] (by decide) rfl (by decide) (by decide)

end Interactions

namespace FollowG

/-- Claim C5: a duplicate `follow_user` request (the edge already exists,
with the target user present as the foreign key guarantees) fails with
the 400 Conflict "Already following this user" and leaves the edge
table unchanged, and a self-follow request fails with the 400 Conflict
"Cannot follow yourself" for every state of the user and edge tables —
the self check precedes any existence lookup — again leaving the
edges unchanged. -/
theorem follow_user_conflicts (users users2 : List Nat)
    (edges edges2 : List Follow) (a b c : Nat)
    (hb : b ∈ users)
    (hedge : (⟨a, b⟩ : Follow) ∈ edges)
    (hab : a ≠ b) :
    follow_user users edges a b = .error ⟨400, "Already following this user"⟩
    ∧ follow_apply users edges a b = edges
    ∧ follow_user users2 edges2 c c = .error ⟨400, "Cannot follow yourself"⟩
    ∧ follow_apply users2 edges2 c c = edges2 := by
  have hba : (b == a) = false := by
    simp [beq_eq_false_iff_ne]
    exact fun h => hab h.symm
  have hany : edges.any (fun e => e.follower == a && e.followed == b) = true :=
    List.any_eq_true.2 ⟨⟨a, b⟩, hedge, by simp⟩
  have hdup : follow_user users edges a b
      = .error ⟨400, "Already following this user"⟩ := by
    unfold follow_user
    rw [if_neg (by simp [hba])]
    rw [if_neg (by simpa using hb)]
    rw [if_pos (by simpa using hany)]
  have hself : follow_user users2 edges2 c c
      = .error ⟨400, "Cannot follow yourself"⟩ := by
    unfold follow_user
    rw [if_pos (by simp)]
  refine ⟨hdup, ?_, hself, ?_⟩
  · unfold follow_apply
    rw [hdup]
  · unfold follow_apply
    rw [hself]

/-- Witness for C5: duplicate follow 1→2 conflicts, and 3→3 self-follow
conflicts even over empty tables (user 3 does not exist). -/
theorem follow_user_conflicts_witness :
    follow_user [1, 2] [⟨1, 2⟩] 1 2 = .error ⟨400, "Already following this user"⟩
    ∧ follow_apply [1, 2] [⟨1, 2⟩] 1 2 = [⟨1, 2⟩]
    ∧ follow_user [] [] 3 3 = .error ⟨400, "Cannot follow yourself"⟩
    ∧ follow_apply [] [] 3 3 = [] :=
  follow_user_conflicts [1, 2] [] [⟨1, 2⟩] [] 1 2 3 (by decide) (by decide)
    (by decide)

end FollowG

namespace Analytics

/-- Distinct post ids produce distinct Redis keys. -/
theorem viewKey_inj {p q : String} (h : viewKey p = viewKey q) : p = q := by
  have hd : (viewKey p).data = (viewKey q).data := congrArg String.data h
  unfold viewKey at hd
  simp [String.data_append] at hd
  exact String.ext hd

/-- Adding a fresh element under a key prepends it to that key's set. -/
theorem redisLookup_pfadd_self (r : Redis) (k e : String)
    (hmem : e ∉ redisLookup r k) :
    redisLookup (pfadd r k e).2 k = e :: redisLookup r k := by
  simp only [pfadd, if_neg hmem]
  unfold redisLookup
  rw [List.find?_cons]
  simp

/-- `pfadd` under one key leaves every other key's set unchanged. -/
theorem redisLookup_pfadd_other (r : Redis) (k1 k2 e : String) (hne : k2 ≠ k1) :
    redisLookup (pfadd r k1 e).2 k2 = redisLookup r k2 := by
  by_cases hmem : e ∈ redisLookup r k1
  · simp only [pfadd, if_pos hmem]
  · simp only [pfadd, if_neg hmem]
    unfold redisLookup
    rw [List.find?_cons]
    rw [find?_filter_of_imp (fun (x : String × List String) => decide (x.1 = k2))
      (fun (x : String × List String) => decide (x.1 ≠ k1)) (fun x hx => by
        have hx1 : x.1 = k2 := of_decide_eq_true hx
        exact decide_eq_true (by rw [hx1]; exact hne))]
    have hd : (decide (k1 = k2)) = false := decide_eq_false fun hh => hne hh.symm
    cases hf : List.find? (fun e => decide (e.1 = k2)) r <;> simp [hd, hf]

/-- `pfadd` answers 0 when the element is already recorded under the key. -/
theorem pfadd_fst_mem (r : Redis) (k e : String) (h : e ∈ redisLookup r k) :
    (pfadd r k e).1 = 0 := by
  simp [pfadd, h]

/-- `pfadd` answers 1 when the element is new under the key. -/
theorem pfadd_fst_fresh (r : Redis) (k e : String) (h : e ∉ redisLookup r k) :
    (pfadd r k e).1 = 1 := by
  simp [pfadd, h]

/-- Claim C7: `increment_view_count` returns true on the first call for a
(post, viewer key) pair, false on a repeat call with the same key for
the same post, and true again for the first call with the same key on
a different post — uniqueness is scoped per post because the Redis key
embeds the post id. -/
theorem register_view_per_post (r : Redis) (p ip p2 : String)
    (h1 : ip ∉ redisLookup r (viewKey p))
    (hne : p2 ≠ p)
    (h3 : ip ∉ redisLookup r (viewKey p2)) :
    (increment_view_count r p ip).1 = true
    ∧ (increment_view_count (increment_view_count r p ip).2 p ip).1 = false
    ∧ (increment_view_count (increment_view_count r p ip).2 p2 ip).1 = true := by
  refine ⟨?_, ?_, ?_⟩
  · simp only [increment_view_count]
    rw [pfadd_fst_fresh r (viewKey p) ip h1]
    rfl
  · have hm : ip ∈ redisLookup (pfadd r (viewKey p) ip).2 (viewKey p) := by
      rw [redisLookup_pfadd_self r (viewKey p) ip h1]
      exact List.mem_cons_self ip _
    simp only [increment_view_count]
    rw [pfadd_fst_mem (pfadd r (viewKey p) ip).2 (viewKey p) ip hm]
    rfl
  · have hk : viewKey p2 ≠ viewKey p := fun h => hne (viewKey_inj h)
    have hfresh2 : ip ∉ redisLookup (pfadd r (viewKey p) ip).2 (viewKey p2) := by
      rw [redisLookup_pfadd_other r (viewKey p) (viewKey p2) ip hk]
      exact h3
    simp only [increment_view_count]
    rw [pfadd_fst_fresh (pfadd r (viewKey p) ip).2 (viewKey p2) ip hfresh2]
    rfl

/-- Witness for C7 on an empty Redis and two posts. -/
theorem register_view_per_post_witness :
    (increment_view_count [] "p1" "1.2.3.4").1 = true
    ∧ (increment_view_count (increment_view_count [] "p1" "1.2.3.4").2
        "p1" "1.2.3.4").1 = false
    ∧ (increment_view_count (increment_view_count [] "p1" "1.2.3.4").2
        "p2" "1.2.3.4").1 = true :=
  register_view_per_post [] "p1" "1.2.3.4" "p2" (by decide) (by decide) (by decide)

end Analytics

namespace Posts

/-- Claim C2 (code bug): `update_post` never emits a search-index event.
Updating a visible field (here the body) of a published post returns
the updated post with an empty event list — although the unreachable
block after the early `return` would have emitted an upsert — and a
transition from published to draft likewise returns an empty event
list where the unreachable block would have emitted a remove. -/
theorem update_post_emits_no_sync_events :
    ((update_post [⟨"p1", "u1", "Old title", "old-title", "short body",
        PostStatus.published, some 1, 0, 1⟩] "p1" "u1" false
        ⟨none, some "brand new body", none⟩ 5).map
      (fun x => (x.1.status, x.2, update_post_dead_block x.1))
      = .ok (PostStatus.published, [],
          [SyncEvent.upsert ⟨"p1", "u1", "Old title", "old-title",
            "brand new body", PostStatus.published, some 1, 0, 1⟩]))
    ∧ ((update_post [⟨"p1", "u1", "Old title", "old-title", "short body",
        PostStatus.published, some 1, 0, 1⟩] "p1" "u1" false
        ⟨none, none, some PostStatus.draft⟩ 5).map
      (fun x => (x.1.status, x.2, update_post_dead_block x.1))
      = .ok (PostStatus.draft, [], [SyncEvent.remove "p1"])) :=
  ⟨rfl, rfl⟩

/-- Claim C8: reading a published post by slug increments the durable
`view_count` by exactly 1 when `increment_view_count` reports a unique
view and leaves it unchanged otherwise, so the counter counts exactly
the confirmed-unique registrations. -/
theorem get_post_by_slug_view_count (posts : List Post) (r : Analytics.Redis)
    (slug ip : String) (post : Post)
    (hfind : posts.find? (fun q => q.slug == slug) = some post)
    (hpub : post.status = PostStatus.published) :
    get_post_by_slug posts r slug ip
      = .ok ({ post with viewCount := post.viewCount
            + (if (Analytics.increment_view_count r post.id ip).1 then 1 else 0) },
          (Analytics.increment_view_count r post.id ip).2) := by
  cases hu : (Analytics.increment_view_count r post.id ip).1 with
  | true =>
    simp only [get_post_by_slug, hfind, hpub, hu]
    simp
  | false =>
    simp only [get_post_by_slug, hfind, hpub, hu]
    simp
    rw [← hpub]

/-- Witness for C8 on a one-post store and empty Redis: the first view
from a fresh address is unique, so the counter moves from 3 to 4. -/
theorem get_post_by_slug_view_count_witness :
    get_post_by_slug [⟨"p1", "u1", "T", "slug1", "body", PostStatus.published,
        some 1, 3, 1⟩] [] "slug1" "9.9.9.9"
      = .ok ({ (⟨"p1", "u1", "T", "slug1", "body", PostStatus.published,
            some 1, 3, 1⟩ : Post) with viewCount := 3
          + (if (Analytics.increment_view_count [] "p1" "9.9.9.9").1 then 1 else 0) },
        (Analytics.increment_view_count [] "p1" "9.9.9.9").2) :=
  get_post_by_slug_view_count [⟨"p1", "u1", "T", "slug1", "body",
    PostStatus.published, some 1, 3, 1⟩] [] "slug1" "9.9.9.9"
    ⟨"p1", "u1", "T", "slug1", "body", PostStatus.published, some 1, 3, 1⟩
    rfl rfl

end Posts

namespace Search

/-- Counterexample to C3: the synchronizer has no freshness check.  With
two upserts for post 1, the one carrying the newer `updated_at = 2`
processed first and the stale one carrying `updated_at = 1` processed
second, the index ends up holding the stale document, which differs
from the newer one — the stale upsert is not discarded. -/
theorem stale_upsert_overwrites_newer :
    esGet (index_post false
        (index_post false [] ⟨1, "new title", "new text", "published", 0, 2⟩).1
        ⟨1, "old title", "old text", "published", 0, 1⟩).1 1
      = some (index_post_doc ⟨1, "old title", "old text", "published", 0, 1⟩)
    ∧ index_post_doc ⟨1, "old title", "old text", "published", 0, 1⟩
      ≠ index_post_doc ⟨1, "new title", "new text", "published", 0, 2⟩ :=
  ⟨rfl, by decide⟩

/-- Claim C3 as amended: the index converges to the payload of the
*last-processed* upsert for a post id, regardless of the `updated_at`
values carried by the events — processing order, not timestamp order,
determines the final document. -/
theorem index_post_last_processed_wins (idx : EsIndex) (p q : PostPayload)
    (hid : p.id = q.id) :
    esGet (index_post false (index_post false idx p).1 q).1 q.id
      = some (index_post_doc q) := by
  simp [index_post, esSet, esGet, List.find?_cons]

/-- Witness for C3 (amended): the stale upsert processed second wins. -/
theorem index_post_last_processed_wins_witness :
    esGet (index_post false
        (index_post false [] ⟨1, "new", "n", "published", 0, 2⟩).1
        ⟨1, "old", "o", "published", 0, 1⟩).1 1
      = some (index_post_doc ⟨1, "old", "o", "published", 0, 1⟩) :=
  index_post_last_processed_wins [] ⟨1, "new", "n", "published", 0, 2⟩
    ⟨1, "old", "o", "published", 0, 1⟩ rfl

/-- Counterexample to C9: a failing index call is not retried.  On a run
whose single `client.index` call fails, `index_post` makes exactly one
attempt, swallows the exception, and leaves the index unchanged — the
document is dropped without any internal retry. -/
theorem index_failure_not_retried :
    index_post true [] ⟨1, "t", "body", "published", 0, 7⟩ = ([], 1, false)
    ∧ esGet ([] : EsIndex) 1 = none :=
  ⟨rfl, rfl⟩

/-- Claim C9 as amended: `index_post` makes exactly one attempt per event,
never lets an exception escape to its caller (so the originating
request, whose success was already decided by the primary-store
commit, is unaffected), and on failure logs and drops the event,
leaving the index unchanged. -/
theorem index_post_failure_isolated (callFails : Bool) (idx : EsIndex)
    (p : PostPayload) :
    (index_post callFails idx p).2.1 = 1
    ∧ (index_post callFails idx p).2.2 = false
    ∧ (index_post true idx p).1 = idx := by
  cases callFails <;> simp [index_post]

end Search
